import Mathlib

/-!
Verification development for the AudioVideo scene-composition service
(`src/app.py`).  The pipeline around the `/process_scene` endpoint is embedded
shallowly: file-system effects become an explicit association list from paths
to contents, `uuid.uuid4()` becomes an injective counter-driven fresh-name
generator, and every external effect (HTTP fetch, ffprobe, ffmpeg encode /
concat / mux) is an oracle supplied through an `Env` record, exactly at the
points where `app.py` shells out.  Each embedded definition mirrors one Python
function of the source and keeps its name.
-/

namespace AudioVideo

/-- Seconds.  Python float arithmetic on durations is modelled exactly over ℚ;
only comparisons and subtraction occur in the source. -/
abbrev Time : Type := ℚ

/-- Model of the file tree touched by the service: association list from path
to file content, most recent write first. -/
abbrev FS : Type := List (String × String)

/-- `open(p,'wb').write(c)`: a write shadows any earlier file at `p`. -/
def fsWrite (fs : FS) (p c : String) : FS := (p, c) :: fs

/-- Reading a file: the most recent write at `p`, if any. -/
def fsGet : FS → String → Option String
  | [], _ => none
  | (q, c) :: rest, p => if q = p then some c else fsGet rest p

/-- `p` lies strictly under directory `dir` (used by `shutil.rmtree`). -/
def isUnder (dir p : String) : Bool := List.isPrefixOf (dir.data ++ ['/']) p.data

/-- `uuid.uuid4()` modelled as an injective fresh-name generator driven by the
per-worker counter; each call of the source consumes one counter value. -/
def uuid (n : Nat) : String := String.mk (List.replicate n 'u')

def UPLOAD_FOLDER : String := "uploads"

def OUTPUT_FOLDER : String := "output"

def DEBUG_FOLDER : String := "debug"

/-- `os.path.join` (also covering the `os.path.abspath` wrapping in the source,
which only normalizes the rendering of the same path). -/
def pjoin (a b : String) : String := a ++ "/" ++ b

/-- The name `os.path.join(folder, f"{uuid.uuid4()}{ext}")` given counter `n`. -/
def temp (folder : String) (n : Nat) (ext : String) : String :=
  pjoin folder (uuid n ++ ext)

/-- Debug copy written by `download_from_s3` (app.py:573-576). -/
def debugDown (n : Nat) : String :=
  pjoin DEBUG_FOLDER ("downloaded_" ++ uuid n ++ ".mp4")

/-- Debug copy written by `process_video_with_timestamps` (app.py:651-654). -/
def debugProc (n : Nat) : String :=
  pjoin DEBUG_FOLDER ("processed_" ++ uuid n ++ ".mp4")

/-- The concat manifest `shots_list.txt` of `process_scene` (app.py:384). -/
def listFileName (folder : String) : String := pjoin folder "shots_list.txt"

/-- Final deliverable path `output/scene_{scene_id}.mp4` (app.py:431-432). -/
def outputFile (scene_id : String) : String :=
  pjoin OUTPUT_FOLDER ("scene_" ++ scene_id ++ ".mp4")

/-- One entry of the request body's `shots` list (url, filename, optional
`timestamp` pair). -/
structure Shot where
  url : String
  filename : String
  timestamp : Option (Time × Time)
deriving DecidableEq

/-- The `/process_scene` request body: `shots`, optional `audio` url, and the
scene identifier (defaulted by the caller when absent). -/
structure SceneRequest where
  shots : List Shot
  audio : Option String
  scene_id : String
deriving DecidableEq

/-- Oracle for everything outside the program: `requests.get` bodies (`none`
models a raised `RequestException`, e.g. a 404), `ffprobe` durations, and the
content produced by each kind of ffmpeg invocation (`none` models a non-zero
exit).  Media contents are abstract strings keyed by what ffmpeg would read. -/
structure Env where
  timestamp : String
  fetch : String → Option String
  duration : String → Option Time
  encode : String → Time → Time → Option String
  concat : List String → Option String
  mux : String → String → Option String

/-- Worker-visible mutable state: the file tree, the set of existing
directories, the fresh-name counter, the list of external commands issued, and
the thread-local `request_data.folder`. -/
structure WState where
  fs : FS
  dirs : List String
  counter : Nat
  cmds : List (List String)
  tlFolder : Option String
deriving DecidableEq

/-- A worker thread before it has served any request. -/
def initState : WState := ⟨[], [], 0, [], none⟩

instance {α β : Type} [DecidableEq α] [DecidableEq β] : DecidableEq (Except α β) :=
  fun x y =>
    match x, y with
    | .error a, .error b =>
      if h : a = b then isTrue (by rw [h]) else isFalse (by simp [h])
    | .error _, .ok _ => isFalse (by simp)
    | .ok _, .error _ => isFalse (by simp)
    | .ok a, .ok b =>
      if h : a = b then isTrue (by rw [h]) else isFalse (by simp [h])

/-- Outcome of `process_scene` as seen by the HTTP layer: a `send_file`
response or a JSON error with its status code. -/
inductive SceneResult where
  | file (path : String) (downloadName : String)
  | err (msg : String) (code : Nat)
deriving DecidableEq

/-- Substring test on character lists ("`pat` in `s`" of Python). -/
def hasSubAux (pat : List Char) : List Char → Bool
  | [] => pat.isEmpty
  | c :: rest => List.isPrefixOf pat (c :: rest) || hasSubAux pat rest

/-- Python's `pat in s` on strings. -/
def hasSub (s pat : String) : Bool := hasSubAux pat.data s.data

/-- URL normalization of `download_from_s3` (app.py:550-559): URLs already in
the public-endpoint form pass through; others are rewritten from their dot
components. -/
def normalize_url (url : String) : String :=
  if hasSub url "s3." && hasSub url ".amazonaws.com" then url
  else
    let parts := url.splitOn "."
    let bucket_name := (parts.headD "").replace "https://" ""
    let key := String.intercalate "/" (parts.drop 3)
    "https://" ++ bucket_name ++ ".s3.amazonaws.com/" ++ key

/-- `download_from_s3` (app.py:543-585): normalize the URL, fetch, reject an
empty body, and save a debug copy of the body under `debug/` before returning
the bytes. -/
def download_from_s3 (env : Env) (s : WState) (url : String) :
    Except String String × WState :=
  let u := normalize_url url
  match env.fetch u with
  | none => (.error ("Error downloading from S3: " ++ u), s)
  | some content =>
    if content = "" then (.error "Downloaded file is empty", s)
    else
      let debug_path := debugDown s.counter
      (.ok content,
        { s with counter := s.counter + 1, fs := fsWrite s.fs debug_path content })

/-- The `ffprobe` duration command of app.py:596-602. -/
def probe_cmd (input : String) : List String :=
  ["ffprobe", "-v", "error", "-show_entries", "format=duration",
   "-of", "default=noprint_wrappers=1:nokey=1", input]

/-- The trim/re-encode ffmpeg command of app.py:617-631. -/
def trim_cmd (input : String) (start dur : Time) (output : String) : List String :=
  ["ffmpeg", "-y", "-ss", toString start, "-i", input, "-t", toString dur,
   "-c:v", "libx264", "-preset", "medium", "-crf", "18",
   "-movflags", "+faststart", "-c:a", "aac", "-b:a", "192k",
   "-strict", "experimental", output]

/-- The concat ffmpeg command of `process_scene` (app.py:399-413). -/
def scene_merge_cmd (list_file output : String) : List String :=
  ["ffmpeg", "-y", "-f", "concat", "-safe", "0", "-i", list_file,
   "-c:v", "libx264", "-preset", "medium", "-crf", "18",
   "-movflags", "+faststart", "-c:a", "aac", "-b:a", "192k",
   "-strict", "experimental", output]

/-- The audio mux ffmpeg command of `process_scene` (app.py:434-444). -/
def scene_mux_cmd (video audio output : String) : List String :=
  ["ffmpeg", "-y", "-i", video, "-i", audio, "-c:v", "copy", "-c:a", "aac",
   "-map", "0:v:0", "-map", "1:a:0", output]

/-- The clamped extraction length of app.py:607-613. -/
def effective_duration (start_t end_t D : Time) : Time :=
  if end_t - start_t > D then D else end_t - start_t

/-- `process_video_with_timestamps` (app.py:587-677): probe the input duration,
clamp the requested window length to it, run the fixed re-encode, verify a
non-empty output, save a debug copy, then run the advisory output probe. -/
def process_video_with_timestamps (env : Env) (s : WState) (input_file : String)
    (start_time end_time : Time) (output_file : String) :
    Except String Unit × WState :=
  let s0 := { s with cmds := s.cmds ++ [probe_cmd input_file] }
  match fsGet s0.fs input_file with
  | none => (.error ("Failed to probe input: " ++ input_file), s0)
  | some c =>
    match env.duration c with
    | none => (.error ("Failed to probe input: " ++ input_file), s0)
    | some input_duration =>
      let target_duration := effective_duration start_time end_time input_duration
      let s1 := { s0 with
        cmds := s0.cmds ++ [trim_cmd input_file start_time target_duration output_file] }
      match env.encode c start_time target_duration with
      | none => (.error "Failed to process video", s1)
      | some out =>
        let s2 := { s1 with fs := fsWrite s1.fs output_file out }
        if out = "" then (.error ("Output file is empty: " ++ output_file), s2)
        else
          let s3 := { s2 with counter := s2.counter + 1,
                              fs := fsWrite s2.fs (debugProc s2.counter) out }
          (.ok (), { s3 with cmds := s3.cmds ++ [probe_cmd output_file] })

/-- `shutil.copy2`: read the source (raising if absent) and write the
destination. -/
def copy2 (s : WState) (src dst : String) : Except String Unit × WState :=
  match fsGet s.fs src with
  | none => (.error ("copy2: no such file: " ++ src), s)
  | some c => (.ok (), { s with fs := fsWrite s.fs dst c })

/-- One iteration of the shot loop of `process_scene` (app.py:338-380):
download the shot, persist it in the request folder, then trim it when a
window is present or straight-copy it otherwise. -/
def shot_step (env : Env) (folder : String) (sh : Shot) (s : WState) :
    Except String String × WState :=
  match download_from_s3 env s sh.url with
  | (.error e, s1) => (.error e, s1)
  | (.ok c, s1) =>
    let temp_input := temp folder s1.counter ".mp4"
    let s2 := { s1 with counter := s1.counter + 1, fs := fsWrite s1.fs temp_input c }
    let temp_output := temp folder s2.counter ".mp4"
    let s3 := { s2 with counter := s2.counter + 1 }
    match sh.timestamp with
    | some (st, en) =>
      match process_video_with_timestamps env s3 temp_input st en temp_output with
      | (.error e, s4) => (.error e, s4)
      | (.ok _, s4) => (.ok temp_output, s4)
    | none =>
      match copy2 s3 temp_input temp_output with
      | (.error e, s4) => (.error e, s4)
      | (.ok _, s4) => (.ok temp_output, s4)

/-- The full shot loop, collecting the processed paths in declared order. -/
def shots_loop (env : Env) (folder : String) :
    List Shot → WState → Except String (List String) × WState
  | [], s => (.ok [], s)
  | sh :: rest, s =>
    match shot_step env folder sh s with
    | (.error e, s1) => (.error e, s1)
    | (.ok p, s1) =>
      match shots_loop env folder rest s1 with
      | (.error e, s2) => (.error e, s2)
      | (.ok ps, s2) => (.ok (p :: ps), s2)

/-- An apostrophe, kept out of string literals. -/
def squote : String := String.mk [Char.ofNat 39]

/-- One manifest line `file '<path>'` + newline (app.py:396). -/
def fmt_entry (f : String) : String := "file " ++ squote ++ f ++ squote ++ "\n"

/-- Step 2 of `process_scene` (app.py:382-419): allocate the merged-output
name, write the manifest (the incremental write that aborts at the first
missing processed file is modelled as writing the longest checked prefix),
then run the concat command. -/
def concat_step (env : Env) (folder : String) (processed : List String)
    (s : WState) : Except String String × WState :=
  let shots_merged := temp folder s.counter ".mp4"
  let s1 := { s with counter := s.counter + 1 }
  let lf := listFileName folder
  let pre := processed.takeWhile (fun f => (fsGet s1.fs f).isSome)
  let s2 := { s1 with fs := fsWrite s1.fs lf (String.join (pre.map fmt_entry)) }
  if pre.length = processed.length then
    let s3 := { s2 with cmds := s2.cmds ++ [scene_merge_cmd lf shots_merged] }
    match env.concat (processed.map (fun f => (fsGet s3.fs f).getD "")) with
    | none => (.error "Failed to merge videos", s3)
    | some m => (.ok shots_merged, { s3 with fs := fsWrite s3.fs shots_merged m })
  else (.error "Processed file not found", s2)

/-- Final integrity check of `process_scene` (app.py:461-465). -/
def final_integrity_check (scene_id : String) (s : WState) :
    Except String (String × String) × WState :=
  match fsGet s.fs (outputFile scene_id) with
  | none => (.error "Final output file is empty or does not exist", s)
  | some c =>
    if c = "" then (.error "Final output file is empty or does not exist", s)
    else (.ok (outputFile scene_id, "scene_" ++ scene_id ++ ".mp4"), s)

/-- Copy the video-only merged asset to the deliverable path and run the final
check (app.py:452-465, also the no-audio branch 455-459). -/
def emit_video_only (scene_id shots_merged : String) (s : WState) :
    Except String (String × String) × WState :=
  match copy2 s shots_merged (outputFile scene_id) with
  | (.error e, s1) => (.error e, s1)
  | (.ok _, s1) => final_integrity_check scene_id s1

/-- Step 3 of `process_scene` (app.py:421-465): with an audio url, try
fetch + mux and on any failure of that block fall back to the video-only
asset; without audio, emit the video-only asset directly.  Ends with the
final integrity check. -/
def after_concat (env : Env) (folder scene_id : String)
    (audio_url : Option String) (shots_merged : String) (s : WState) :
    Except String (String × String) × WState :=
  match audio_url with
  | none => emit_video_only scene_id shots_merged s
  | some aurl =>
    match download_from_s3 env s aurl with
    | (.error _, s1) => emit_video_only scene_id shots_merged s1
    | (.ok ac, s1) =>
      let audio_file := temp folder s1.counter ".mp3"
      let s2 := { s1 with counter := s1.counter + 1,
                          fs := fsWrite s1.fs audio_file ac }
      let outp := outputFile scene_id
      let s3 := { s2 with cmds := s2.cmds ++ [scene_mux_cmd shots_merged audio_file outp] }
      match env.mux ((fsGet s3.fs shots_merged).getD "") ac with
      | none => emit_video_only scene_id shots_merged s3
      | some mx =>
        final_integrity_check scene_id { s3 with fs := fsWrite s3.fs outp mx }

/-- `get_request_folder` (app.py:72-80): reuse the thread-local folder when
set; otherwise build a fresh timestamped name, create the directory and store
it thread-locally. -/
def get_request_folder (env : Env) (s : WState) : String × WState :=
  match s.tlFolder with
  | some f => (f, s)
  | none =>
    let folder := pjoin UPLOAD_FOLDER ("request_" ++ env.timestamp ++ "_" ++ uuid s.counter)
    (folder, { s with counter := s.counter + 1, tlFolder := some folder,
                      dirs := s.dirs ++ [folder] })

/-- `cleanup_request_folder` (app.py:82-88): if the thread-local folder is set
and exists, recursively delete it.  The thread-local attribute itself is left
in place, exactly as in the source. -/
def cleanup_request_folder (s : WState) : WState :=
  match s.tlFolder with
  | none => s
  | some f =>
    if f ∈ s.dirs then
      { s with fs := s.fs.filter (fun e => !(isUnder f e.1)),
               dirs := s.dirs.filter (fun d => !(d == f || isUnder f d)) }
    else s

/-- `process_scene` (app.py:315-473): validate, acquire the request folder,
run the shot loop, concat, the audio stage and the final check, then clean the
request folder on every path; inner errors surface as a 500 response. -/
def process_scene (env : Env) (req : SceneRequest) (s : WState) :
    SceneResult × WState :=
  if req.shots.length < 1 then (.err "At least one shot is required" 400, s)
  else
    let fs1 := get_request_folder env s
    let folder := fs1.1
    let rs : Except String (String × String) × WState :=
      match shots_loop env folder req.shots fs1.2 with
      | (.error e, sa) => (.error e, sa)
      | (.ok processed, sa) =>
        match concat_step env folder processed sa with
        | (.error e, sb) => (.error e, sb)
        | (.ok sm, sb) => after_concat env folder req.scene_id req.audio sm sb
    let s3 := cleanup_request_folder rs.2
    match rs.1 with
    | .ok pn => (.file pn.1 pn.2, s3)
    | .error e => (.err e 500, s3)

/-- The content the pipeline produces for one shot, as a pure function of the
environment: fetched body, then identity (no window) or the clamped re-encode
(window present); `none` when the shot would abort the scene. -/
def shotOutputContent (env : Env) (sh : Shot) : Option String :=
  match env.fetch (normalize_url sh.url) with
  | none => none
  | some c =>
    if c = "" then none
    else
      match sh.timestamp with
      | none => some c
      | some (st, en) =>
        match env.duration c with
        | none => none
        | some D =>
          match env.encode c st (effective_duration st en D) with
          | none => none
          | some out => if out = "" then none else some out

/-- The output choice of the `merge_audio` endpoint (app.py:168-175): exactly
one valid file is copied straight to the output; several are merged. -/
inductive AudioMergePlan where
  | copySingle (f : String)
  | mergeAll (fs : List String)
deriving DecidableEq

/-- app.py:168-175. -/
def merge_audio_plan (valid_files : List String) : AudioMergePlan :=
  if valid_files.length = 1 then .copySingle (valid_files.headD "")
  else .mergeAll valid_files

/-- Stated from the spec's words (sections 4.3 / 6 "streams copied without
re-encoding"): an ffmpeg invocation that copies the input streams rather than
re-encoding them, i.e. it selects the `copy` codec for its outputs. -/
def claimed_stream_copy (cmd : List String) : Bool := cmd.contains "copy"

/-- A request folder as produced by `get_request_folder`: it lives under
`uploads/`, so its path starts with the letter u. -/
def GoodFolder (folder : String) : Prop := folder.data.head? = some 'u'

/-- Paths the pipeline may write from counter value `c` on, for request folder
`folder` and scene `sid`, are uuid-named files with index at least `c`, the
manifest and the deliverable; `Untouched` says `p` is none of them, so any
later stage leaves the file at `p` alone. -/
def Untouched (folder sid : String) (c : Nat) (p : String) : Prop :=
  (∀ k, c ≤ k →
    p ≠ debugDown k ∧ p ≠ debugProc k ∧
    p ≠ temp folder k ".mp4" ∧ p ≠ temp folder k ".mp3") ∧
  p ≠ listFileName folder ∧ p ≠ outputFile sid

/-! Concrete fixtures used to evaluate the pipeline in witnesses and
counterexamples. -/

def wVUrl : String := "https://b.s3.us.amazonaws.com/v"

def wV2Url : String := "https://b.s3.us.amazonaws.com/w"

def wAUrl : String := "https://b.s3.us.amazonaws.com/a"

/-- Test environment: two fetchable 10s video assets, an audio url whose fetch
fails (a 404), deterministic trim/concat outcomes, a mux that always fails. -/
def wEnv : Env :=
  { timestamp := "T"
    fetch := fun u =>
      if u = wVUrl then some "V" else if u = wV2Url then some "W" else none
    duration := fun c =>
      if c = "V" then some 10 else if c = "W" then some 10 else none
    encode := fun c st d =>
      if c = "V" ∧ st = 0 ∧ d = 4 then some "Vt"
      else if c = "W" ∧ st = 0 ∧ d = 4 then some "Wt"
      else if c = "V" ∧ st = 0 ∧ d = 10 then some "Vc" else none
    concat := fun l =>
      if l = ["V"] then some "M" else if l = ["Vt", "Wt"] then some "M2"
      else if l = ["V", "W"] then some "M3" else none
    mux := fun _ _ => none }

/-- Same worker environment at a later wall-clock time (second request). -/
def wEnv2 : Env := { wEnv with timestamp := "T2" }

def wShot : Shot := ⟨wVUrl, "f.mp4", none⟩

def wShotT : Shot := ⟨wVUrl, "f.mp4", some (0, 4)⟩

def wShotT2 : Shot := ⟨wV2Url, "g.mp4", some (0, 4)⟩

/-- One shot, no window, no audio. -/
def wReq : SceneRequest := ⟨[wShot], none, "sid"⟩

/-- One shot, no window, audio url provided (its fetch 404s in `wEnv`). -/
def wReqA : SceneRequest := ⟨[wShot], some wAUrl, "sid"⟩

/-- Two windowed shots, no audio. -/
def wReq2 : SceneRequest := ⟨[wShotT, wShotT2], none, "sid"⟩

/-- A worker state holding one downloaded input file, for trimmer tests. -/
def wTrimState : WState := ⟨[("in.mp4", "V")], [], 0, [], none⟩

/-- A second windowless shot. -/
def wShotB : Shot := ⟨wV2Url, "g.mp4", none⟩

/-- Two windowless shots in declared order, no audio. -/
def wReq3 : SceneRequest := ⟨[wShot, wShotB], none, "sid"⟩

/-- The request folder `wEnv` produces for a fresh worker. -/
def wFolder : String := pjoin UPLOAD_FOLDER ("request_" ++ "T" ++ "_" ++ uuid 0)

/-! ## File-system and path infrastructure -/

theorem fsGet_write_self (fs : FS) (p c : String) : fsGet (fsWrite fs p c) p = some c := by
  simp [fsWrite, fsGet]

theorem fsGet_write_ne (fs : FS) {p q : String} (c : String) (h : p ≠ q) :
    fsGet (fsWrite fs p c) q = fsGet fs q := by
  simp [fsWrite, fsGet, h]

theorem fsGet_filter_keep (f : String) (fs : FS) (q : String) (h : isUnder f q = false) :
    fsGet (fs.filter fun e => !(isUnder f e.1)) q = fsGet fs q := by
  induction fs with
  | nil => rfl
  | cons e rest ih =>
    obtain ⟨p, c⟩ := e
    by_cases hq : p = q
    · subst hq
      simp [List.filter_cons, h, fsGet]
    · by_cases hu : isUnder f p
      · simp [List.filter_cons, hu, fsGet, hq, ih]
      · simp [List.filter_cons, hu, fsGet, hq, ih]

theorem string_eq_iff_data {a b : String} : a = b ↔ a.data = b.data :=
  ⟨fun h => h ▸ rfl, String.ext⟩

theorem slash_data : ("/" : String).data = ['/'] := rfl

theorem pjoin_data (a b : String) : (pjoin a b).data = a.data ++ '/' :: b.data := by
  simp [pjoin, String.data_append, slash_data]

theorem uuid_data (n : Nat) : (uuid n).data = List.replicate n 'u' := rfl

theorem ne_of_head {a b : String} {x y : Char} (ha : a.data.head? = some x)
    (hb : b.data.head? = some y) (hxy : x ≠ y) : a ≠ b := by
  intro h
  subst h
  rw [ha] at hb
  exact hxy (Option.some.inj hb)

theorem pjoin_head (a b : String) {x : Char} (h : a.data.head? = some x) :
    (pjoin a b).data.head? = some x := by
  rw [pjoin_data]
  cases ha : a.data with
  | nil => rw [ha] at h; simp at h
  | cons c t =>
    rw [ha] at h
    simp at h
    simp [h]

theorem pjoin_ne_pjoin_of_head {a c : String} (b d : String) {x y : Char}
    (ha : a.data.head? = some x) (hc : c.data.head? = some y) (hxy : x ≠ y) :
    pjoin a b ≠ pjoin c d :=
  ne_of_head (pjoin_head a b ha) (pjoin_head c d hc) hxy

theorem replicate_dot_ne : ∀ (n m : Nat), n ≠ m → ∀ (t1 t2 : List Char),
    t1.head? = some '.' → t2.head? = some '.' →
    List.replicate n 'u' ++ t1 ≠ List.replicate m 'u' ++ t2 := by
  intro n
  induction n with
  | zero =>
    intro m hm t1 t2 h1 h2 heq
    cases m with
    | zero => exact hm rfl
    | succ k =>
      rw [List.replicate_zero, List.nil_append, List.replicate_succ,
        List.cons_append] at heq
      rw [heq] at h1
      simp at h1
  | succ j ih =>
    intro m hm t1 t2 h1 h2 heq
    cases m with
    | zero =>
      rw [List.replicate_zero, List.nil_append, List.replicate_succ,
        List.cons_append] at heq
      rw [← heq] at h2
      simp at h2
    | succ k =>
      rw [List.replicate_succ, List.replicate_succ, List.cons_append,
        List.cons_append] at heq
      injection heq with _ htail
      exact ih k (fun hjk => hm (by rw [hjk])) t1 t2 h1 h2 htail

theorem temp_ne_temp {folder : String} {n m : Nat} (hnm : n ≠ m) {e1 e2 : String}
    (h1 : e1.data.head? = some '.') (h2 : e2.data.head? = some '.') :
    temp folder n e1 ≠ temp folder m e2 := by
  intro h
  have hd := string_eq_iff_data.mp h
  rw [temp, temp, pjoin_data, pjoin_data] at hd
  have h3 := List.append_cancel_left hd
  injection h3 with _ h4
  rw [String.data_append, String.data_append, uuid_data, uuid_data] at h4
  exact replicate_dot_ne n m hnm e1.data e2.data h1 h2 h4

theorem temp_ne_listfile {folder : String} {n : Nat} {e : String}
    (h : e.data.head? = some '.') : temp folder n e ≠ listFileName folder := by
  intro heq
  have hd := string_eq_iff_data.mp heq
  rw [temp, listFileName, pjoin_data, pjoin_data] at hd
  have h3 := List.append_cancel_left hd
  injection h3 with _ h4
  rw [String.data_append, uuid_data] at h4
  cases n with
  | zero =>
    rw [List.replicate_zero, List.nil_append] at h4
    rw [h4] at h
    exact absurd h (by decide)
  | succ k =>
    rw [List.replicate_succ, List.cons_append] at h4
    have hh : (("shots_list.txt" : String)).data.head? = some 'u' := by
      rw [← h4]
      simp
    exact absurd hh (by decide)

theorem debug_head : DEBUG_FOLDER.data.head? = some 'd' := by decide

theorem output_head : OUTPUT_FOLDER.data.head? = some 'o' := by decide

theorem mp4_head : (".mp4" : String).data.head? = some '.' := by decide

theorem mp3_head : (".mp3" : String).data.head? = some '.' := by decide

theorem temp_untouched {folder sid : String} {n c : Nat} (hg : GoodFolder folder)
    (hlt : n < c) {ext : String} (hext : ext.data.head? = some '.') :
    Untouched folder sid c (temp folder n ext) := by
  refine ⟨fun k hk => ⟨?_, ?_, ?_, ?_⟩, ?_, ?_⟩
  · exact pjoin_ne_pjoin_of_head _ _ hg debug_head (by decide)
  · exact pjoin_ne_pjoin_of_head _ _ hg debug_head (by decide)
  · exact temp_ne_temp (Nat.ne_of_lt (Nat.lt_of_lt_of_le hlt hk)) hext mp4_head
  · exact temp_ne_temp (Nat.ne_of_lt (Nat.lt_of_lt_of_le hlt hk)) hext mp3_head
  · exact temp_ne_listfile hext
  · exact pjoin_ne_pjoin_of_head _ _ hg output_head (by decide)

theorem untouched_mono {folder sid : String} {c c' : Nat} (h : c ≤ c') {p : String}
    (hp : Untouched folder sid c p) : Untouched folder sid c' p :=
  ⟨fun k hk => hp.1 k (Nat.le_trans h hk), hp.2.1, hp.2.2⟩

theorem isUnder_eq_false_of_head {dir p : String} {x y : Char}
    (hd : dir.data.head? = some x) (hp : p.data.head? = some y) (hxy : x ≠ y) :
    isUnder dir p = false := by
  rw [isUnder]
  cases hdd : dir.data with
  | nil => rw [hdd] at hd; simp at hd
  | cons a t =>
    rw [hdd] at hd
    simp at hd
    cases hpp : p.data with
    | nil => rw [hpp] at hp; simp at hp
    | cons b u =>
      rw [hpp] at hp
      simp at hp
      subst hd hp
      simp [List.isPrefixOf]
      intro hxy2
      exact absurd hxy2 hxy

/-! ## Frame and content lemmas for the pipeline stages -/

theorem download_spec {env : Env} {s : WState} {url : String}
    {r : Except String String} {s' : WState}
    (h : download_from_s3 env s url = (r, s')) :
    s'.tlFolder = s.tlFolder ∧ s'.dirs = s.dirs ∧ s'.cmds = s.cmds ∧
    s.counter ≤ s'.counter ∧ s'.counter ≤ s.counter + 1 ∧
    (∀ q, (∀ k, s.counter ≤ k → q ≠ debugDown k) → fsGet s'.fs q = fsGet s.fs q) ∧
    ((∃ e, r = .error e) → s' = s) ∧
    (∀ c, r = .ok c → env.fetch (normalize_url url) = some c ∧ c ≠ "" ∧
      s' = { s with counter := s.counter + 1,
                    fs := fsWrite s.fs (debugDown s.counter) c }) := by
  unfold download_from_s3 at h
  dsimp only at h
  split at h
  · obtain ⟨rfl, rfl⟩ := Prod.mk.inj h
    refine ⟨rfl, rfl, rfl, Nat.le_refl _, Nat.le_succ _, fun q _ => rfl, fun _ => rfl, ?_⟩
    intro c hc
    exact absurd hc (by simp)
  · next content hf =>
    split at h
    · obtain ⟨rfl, rfl⟩ := Prod.mk.inj h
      refine ⟨rfl, rfl, rfl, Nat.le_refl _, Nat.le_succ _, fun q _ => rfl, fun _ => rfl, ?_⟩
      intro c hc
      exact absurd hc (by simp)
    · next hne =>
      obtain ⟨rfl, rfl⟩ := Prod.mk.inj h
      refine ⟨rfl, rfl, rfl, Nat.le_succ _, Nat.le_refl _, ?_, ?_, ?_⟩
      · intro q hq
        exact fsGet_write_ne _ _ (fun hh => hq s.counter (Nat.le_refl _) hh.symm)
      · rintro ⟨e, he⟩
        exact absurd he (by simp)
      · intro c hc
        obtain rfl := Except.ok.inj hc
        exact ⟨hf, hne, rfl⟩

theorem pvt_spec {env : Env} {s : WState} {input : String} {st en : Time}
    {output : String} {r : Except String Unit} {s' : WState}
    (h : process_video_with_timestamps env s input st en output = (r, s')) :
    s'.tlFolder = s.tlFolder ∧ s'.dirs = s.dirs ∧
    s.counter ≤ s'.counter ∧ s'.counter ≤ s.counter + 1 ∧
    (∀ q, q ≠ output → (∀ k, s.counter ≤ k → q ≠ debugProc k) →
      fsGet s'.fs q = fsGet s.fs q) ∧
    (r = .ok () → ∃ c D out, fsGet s.fs input = some c ∧ env.duration c = some D ∧
      env.encode c st (effective_duration st en D) = some out ∧ out ≠ "" ∧
      trim_cmd input st (effective_duration st en D) output ∈ s'.cmds ∧
      (output ≠ debugProc s.counter → fsGet s'.fs output = some out)) := by
  unfold process_video_with_timestamps at h
  dsimp only at h
  split at h
  · obtain ⟨rfl, rfl⟩ := Prod.mk.inj h
    exact ⟨rfl, rfl, Nat.le_refl _, Nat.le_succ _, fun q _ _ => rfl, by simp⟩
  · next c hin =>
    split at h
    · obtain ⟨rfl, rfl⟩ := Prod.mk.inj h
      exact ⟨rfl, rfl, Nat.le_refl _, Nat.le_succ _, fun q _ _ => rfl, by simp⟩
    · next D hdur =>
      split at h
      · obtain ⟨rfl, rfl⟩ := Prod.mk.inj h
        exact ⟨rfl, rfl, Nat.le_refl _, Nat.le_succ _, fun q _ _ => rfl, by simp⟩
      · next out henc =>
        split at h
        · obtain ⟨rfl, rfl⟩ := Prod.mk.inj h
          refine ⟨rfl, rfl, Nat.le_refl _, Nat.le_succ _, ?_, by simp⟩
          intro q hq _
          exact fsGet_write_ne _ _ (fun hh => hq hh.symm)
        · next hout =>
          obtain ⟨rfl, rfl⟩ := Prod.mk.inj h
          refine ⟨rfl, rfl, Nat.le_succ _, Nat.le_refl _, ?_, ?_⟩
          · intro q hq hdbg
            rw [fsGet_write_ne _ _ (fun hh => hdbg s.counter (Nat.le_refl _) hh.symm)]
            exact fsGet_write_ne _ _ (fun hh => hq hh.symm)
          · intro _
            refine ⟨c, D, out, hin, hdur, henc, hout, by simp, ?_⟩
            intro hne
            rw [fsGet_write_ne _ _ (fun hh => hne hh.symm)]
            exact fsGet_write_self _ _ _

theorem copy2_spec {s : WState} {src dst : String} {r : Except String Unit}
    {s' : WState} (h : copy2 s src dst = (r, s')) :
    s'.tlFolder = s.tlFolder ∧ s'.dirs = s.dirs ∧ s'.counter = s.counter ∧
    s'.cmds = s.cmds ∧
    (∀ q, q ≠ dst → fsGet s'.fs q = fsGet s.fs q) ∧
    (∀ e, r = .error e → fsGet s.fs src = none ∧ s' = s) ∧
    (r = .ok () → ∃ c, fsGet s.fs src = some c ∧ s' = { s with fs := fsWrite s.fs dst c }) := by
  unfold copy2 at h
  split at h
  · next hsrc =>
    obtain ⟨rfl, rfl⟩ := Prod.mk.inj h
    exact ⟨rfl, rfl, rfl, rfl, fun q _ => rfl, fun e _ => ⟨hsrc, rfl⟩, by simp⟩
  · next c hsrc =>
    obtain ⟨rfl, rfl⟩ := Prod.mk.inj h
    refine ⟨rfl, rfl, rfl, rfl, ?_, ?_, ?_⟩
    · intro q hq
      exact fsGet_write_ne _ _ (fun hh => hq hh.symm)
    · intro e he
      exact absurd he (by simp)
    · intro _
      exact ⟨c, hsrc, rfl⟩

theorem shot_step_spec {env : Env} {folder : String} {sh : Shot} {s : WState}
    {p : String} {s' : WState} (hg : GoodFolder folder)
    (h : shot_step env folder sh s = (.ok p, s')) :
    ∃ out, shotOutputContent env sh = some out ∧
      p = temp folder (s.counter + 2) ".mp4" ∧
      fsGet s'.fs p = some out ∧
      s.counter + 3 ≤ s'.counter ∧
      s'.tlFolder = s.tlFolder ∧ s'.dirs = s.dirs ∧
      ∀ sid q, Untouched folder sid s.counter q → fsGet s'.fs q = fsGet s.fs q := by
  have e2 : s.counter + 1 + 1 = s.counter + 2 := rfl
  have e3 : s.counter + 1 + 1 + 1 = s.counter + 3 := rfl
  unfold shot_step at h
  split at h
  · simp at h
  · next c s1 heq =>
    obtain ⟨-, -, -, -, -, -, -, hok⟩ := download_spec heq
    obtain ⟨hf, hne, hs1⟩ := hok c rfl
    subst hs1
    dsimp only at h
    split at h
    · next st en hts =>
      split at h
      · simp at h
      · next u s4 heq2 =>
        obtain ⟨h1, h2⟩ := Prod.mk.inj h
        obtain rfl := Except.ok.inj h1
        rw [← h2]
        obtain ⟨h4t, h4d, hc1, -, hpres, hok2⟩ := pvt_spec heq2
        obtain ⟨c2, D, out, hin, hdur, henc, hout, -, hget⟩ := hok2 rfl
        dsimp only at h4t h4d hc1 hpres hin hget
        rw [fsGet_write_self] at hin
        obtain rfl := Option.some.inj hin
        refine ⟨out, ?_, ?_, ?_, ?_, h4t, h4d, ?_⟩
        · simp only [shotOutputContent, hf, hts, hdur, henc]
          simp [hne, hout]
        · rw [e2]
        · exact hget (pjoin_ne_pjoin_of_head _ _ hg debug_head (by decide))
        · omega
        · intro sid q hq
          rw [hpres q ((hq.1 (s.counter + 1 + 1) (by omega)).2.2.1)
              (fun k hk => (hq.1 k (by omega)).2.1)]
          rw [fsGet_write_ne _ _ (fun hh => (hq.1 (s.counter + 1) (by omega)).2.2.1 hh.symm)]
          exact fsGet_write_ne _ _ (fun hh => (hq.1 s.counter (Nat.le_refl _)).1 hh.symm)
    · next hts =>
      split at h
      · simp at h
      · next u s4 heq2 =>
        obtain ⟨h1, h2⟩ := Prod.mk.inj h
        obtain rfl := Except.ok.inj h1
        rw [← h2]
        obtain ⟨h4t, h4d, h4c, -, -, -, hok2⟩ := copy2_spec heq2
        obtain ⟨c2, hin, hs4⟩ := hok2 rfl
        dsimp only at h4t h4d h4c hin hs4
        rw [fsGet_write_self] at hin
        obtain rfl := Option.some.inj hin
        subst hs4
        dsimp only at h4t h4d h4c ⊢
        refine ⟨c, ?_, ?_, ?_, ?_, h4t, h4d, ?_⟩
        · simp only [shotOutputContent, hf, hts]
          simp [hne]
        · rw [e2]
        · exact fsGet_write_self _ _ _
        · omega
        · intro sid q hq
          rw [fsGet_write_ne _ _ (fun hh => (hq.1 (s.counter + 1 + 1) (by omega)).2.2.1 hh.symm)]
          rw [fsGet_write_ne _ _ (fun hh => (hq.1 (s.counter + 1) (by omega)).2.2.1 hh.symm)]
          exact fsGet_write_ne _ _ (fun hh => (hq.1 s.counter (Nat.le_refl _)).1 hh.symm)

theorem shot_step_tl_dirs {env : Env} {folder : String} {sh : Shot} {s : WState}
    {r : Except String String} {s' : WState} (h : shot_step env folder sh s = (r, s')) :
    s'.tlFolder = s.tlFolder ∧ s'.dirs = s.dirs := by
  unfold shot_step at h
  split at h
  · next e s1 heq =>
    obtain ⟨-, rfl⟩ := Prod.mk.inj h
    obtain ⟨ht, hd, -⟩ := download_spec heq
    exact ⟨ht, hd⟩
  · next c s1 heq =>
    obtain ⟨ht1, hd1, -⟩ := download_spec heq
    dsimp only at h
    split at h
    · next st en hts =>
      split at h
      all_goals
        next u s4 heq2 =>
          obtain ⟨-, rfl⟩ := Prod.mk.inj h
          obtain ⟨ht2, hd2, -⟩ := pvt_spec heq2
          exact ⟨ht2.trans ht1, hd2.trans hd1⟩
    · next hts =>
      split at h
      all_goals
        next u s4 heq2 =>
          obtain ⟨-, rfl⟩ := Prod.mk.inj h
          obtain ⟨ht2, hd2, -⟩ := copy2_spec heq2
          exact ⟨ht2.trans ht1, hd2.trans hd1⟩

theorem shots_loop_spec {env : Env} {folder : String} (hg : GoodFolder folder) :
    ∀ (shots : List Shot) (s : WState) (processed : List String) (s' : WState),
      shots_loop env folder shots s = (.ok processed, s') →
      s.counter ≤ s'.counter ∧ s'.tlFolder = s.tlFolder ∧ s'.dirs = s.dirs ∧
      processed.map (fun p => fsGet s'.fs p) = shots.map (fun sh => shotOutputContent env sh) ∧
      (∀ sid q, Untouched folder sid s.counter q → fsGet s'.fs q = fsGet s.fs q) ∧
      (∀ p ∈ processed, ∃ n, s.counter ≤ n ∧ n < s'.counter ∧ p = temp folder n ".mp4") := by
  intro shots
  induction shots with
  | nil =>
    intro s processed s' h
    obtain ⟨h1, rfl⟩ := Prod.mk.inj h
    obtain rfl := Except.ok.inj h1
    exact ⟨Nat.le_refl _, rfl, rfl, rfl, fun _ _ _ => rfl, by simp⟩
  | cons sh rest ih =>
    intro s processed s' h
    simp only [shots_loop] at h
    split at h
    · simp at h
    · next p s1 heq =>
      split at h
      · simp at h
      · next ps s2 heq2 =>
        obtain ⟨h1, rfl⟩ := Prod.mk.inj h
        obtain rfl := Except.ok.inj h1
        obtain ⟨out, hoc, rfl, hget, hcnt, ht1, hd1, hpres1⟩ := shot_step_spec hg heq
        obtain ⟨hcnt2, ht2, hd2, hmap, hpres2, hmem⟩ := ih s1 ps s2 heq2
        refine ⟨by omega, ht2.trans ht1, hd2.trans hd1, ?_, ?_, ?_⟩
        · simp only [List.map_cons, hmap]
          have : fsGet s2.fs (temp folder (s.counter + 2) ".mp4") = some out := by
            rw [hpres2 "" _ (temp_untouched hg (by omega) mp4_head)]
            exact hget
          rw [this, hoc]
        · intro sid q hq
          rw [hpres2 sid q (untouched_mono (by omega) hq)]
          exact hpres1 sid q hq
        · intro q hqmem
          rcases List.mem_cons.mp hqmem with hq | hq
          · exact ⟨s.counter + 2, by omega, by omega, hq⟩
          · obtain ⟨n, hn1, hn2, hn3⟩ := hmem q hq
            exact ⟨n, by omega, hn2, hn3⟩

theorem shots_loop_tl_dirs {env : Env} {folder : String} :
    ∀ (shots : List Shot) (s : WState) (r : Except String (List String)) (s' : WState),
      shots_loop env folder shots s = (r, s') →
      s'.tlFolder = s.tlFolder ∧ s'.dirs = s.dirs := by
  intro shots
  induction shots with
  | nil =>
    intro s r s' h
    obtain ⟨-, rfl⟩ := Prod.mk.inj h
    exact ⟨rfl, rfl⟩
  | cons sh rest ih =>
    intro s r s' h
    simp only [shots_loop] at h
    split at h
    · next e s1 heq =>
      obtain ⟨-, rfl⟩ := Prod.mk.inj h
      exact shot_step_tl_dirs heq
    · next p s1 heq =>
      obtain ⟨ht1, hd1⟩ := shot_step_tl_dirs heq
      split at h
      all_goals
        next x s2 heq2 =>
          obtain ⟨-, rfl⟩ := Prod.mk.inj h
          obtain ⟨ht2, hd2⟩ := ih s1 _ _ heq2
          exact ⟨ht2.trans ht1, hd2.trans hd1⟩

theorem fic_spec {scene_id : String} {s : WState} {r : Except String (String × String)}
    {s' : WState} (h : final_integrity_check scene_id s = (r, s')) :
    s' = s ∧ (∀ c, fsGet s.fs (outputFile scene_id) = some c → c ≠ "" →
      r = .ok (outputFile scene_id, "scene_" ++ scene_id ++ ".mp4")) := by
  unfold final_integrity_check at h
  split at h
  · next hn =>
    obtain ⟨-, rfl⟩ := Prod.mk.inj h
    refine ⟨rfl, ?_⟩
    intro c hc hne
    rw [hn] at hc
    simp at hc
  · next c0 hc0 =>
    split at h
    · next he =>
      obtain ⟨-, rfl⟩ := Prod.mk.inj h
      refine ⟨rfl, ?_⟩
      intro c hc hne
      rw [hc0] at hc
      obtain rfl := Option.some.inj hc
      exact absurd he hne
    · next he =>
      obtain ⟨h1, rfl⟩ := Prod.mk.inj h
      exact ⟨rfl, fun c hc hne => h1.symm⟩

theorem emit_spec {scene_id sm : String} {s : WState}
    {r : Except String (String × String)} {s' : WState}
    (h : emit_video_only scene_id sm s = (r, s')) :
    s'.tlFolder = s.tlFolder ∧ s'.dirs = s.dirs ∧
    (∀ c, fsGet s.fs sm = some c → c ≠ "" →
      r = .ok (outputFile scene_id, "scene_" ++ scene_id ++ ".mp4") ∧
      s' = { s with fs := fsWrite s.fs (outputFile scene_id) c }) := by
  unfold emit_video_only at h
  split at h
  · next e s1 heq =>
    obtain ⟨-, rfl⟩ := Prod.mk.inj h
    obtain ⟨ht, hd, -, -, -, hoke, -⟩ := copy2_spec heq
    obtain ⟨hnone, -⟩ := hoke e rfl
    refine ⟨ht, hd, ?_⟩
    intro c hc hne
    rw [hnone] at hc
    simp at hc
  · next u s1 heq =>
    obtain ⟨c0, hsrc, hs1⟩ := (copy2_spec heq).2.2.2.2.2.2 rfl
    subst hs1
    obtain ⟨rfl, hfic⟩ := fic_spec h
    refine ⟨rfl, rfl, ?_⟩
    intro c hc hne
    rw [hsrc] at hc
    obtain rfl := Option.some.inj hc
    refine ⟨hfic c0 ?_ hne, rfl⟩
    exact fsGet_write_self _ _ _

theorem after_concat_tl_dirs {env : Env} {folder scene_id : String}
    {audio_url : Option String} {sm : String} {s : WState}
    {r : Except String (String × String)} {s' : WState}
    (h : after_concat env folder scene_id audio_url sm s = (r, s')) :
    s'.tlFolder = s.tlFolder ∧ s'.dirs = s.dirs := by
  unfold after_concat at h
  split at h
  · obtain ⟨ht, hd, -⟩ := emit_spec h
    exact ⟨ht, hd⟩
  · next aurl =>
    split at h
    · next e s1 heq =>
      obtain ⟨ht1, hd1, -⟩ := download_spec heq
      obtain ⟨ht2, hd2, -⟩ := emit_spec h
      exact ⟨ht2.trans ht1, hd2.trans hd1⟩
    · next ac s1 heq =>
      obtain ⟨ht1, hd1, -⟩ := download_spec heq
      dsimp only at h
      split at h
      · obtain ⟨ht2, hd2, -⟩ := emit_spec h
        exact ⟨ht2.trans ht1, hd2.trans hd1⟩
      · obtain ⟨rfl, -⟩ := fic_spec h
        exact ⟨ht1, hd1⟩

theorem concat_step_tl_dirs {env : Env} {folder : String} {processed : List String}
    {s : WState} {r : Except String String} {s' : WState}
    (h : concat_step env folder processed s = (r, s')) :
    s'.tlFolder = s.tlFolder ∧ s'.dirs = s.dirs := by
  unfold concat_step at h
  dsimp only at h
  split at h
  · split at h
    · obtain ⟨-, rfl⟩ := Prod.mk.inj h
      exact ⟨rfl, rfl⟩
    · obtain ⟨-, rfl⟩ := Prod.mk.inj h
      exact ⟨rfl, rfl⟩
  · obtain ⟨-, rfl⟩ := Prod.mk.inj h
    exact ⟨rfl, rfl⟩

theorem concat_step_shape {env : Env} {folder : String} {processed : List String}
    {s : WState} {sm : String} {s' : WState}
    (h : concat_step env folder processed s = (.ok sm, s')) :
    sm = temp folder s.counter ".mp4" ∧ s'.counter = s.counter + 1 := by
  unfold concat_step at h
  dsimp only at h
  split at h
  · split at h
    · simp at h
    · obtain ⟨h1, rfl⟩ := Prod.mk.inj h
      obtain rfl := Except.ok.inj h1
      exact ⟨rfl, rfl⟩
  · simp at h

theorem concat_step_ok {env : Env} {folder : String} {processed : List String}
    {s : WState} {sm : String} {s' : WState}
    (hall : ∀ p ∈ processed, ∃ n, n < s.counter ∧ p = temp folder n ".mp4")
    (h : concat_step env folder processed s = (.ok sm, s')) :
    sm = temp folder s.counter ".mp4" ∧
    ∃ m, env.concat (processed.map (fun f => (fsGet s.fs f).getD "")) = some m ∧
      fsGet s'.fs sm = some m ∧
      fsGet s'.fs (listFileName folder) = some (String.join (processed.map fmt_entry)) ∧
      scene_merge_cmd (listFileName folder) sm ∈ s'.cmds := by
  unfold concat_step at h
  dsimp only at h
  split at h
  · next hlen =>
    split at h
    · simp at h
    · next m hm =>
      obtain ⟨h1, rfl⟩ := Prod.mk.inj h
      obtain rfl := Except.ok.inj h1
      have hpre : processed.takeWhile
          (fun f => (fsGet { s with counter := s.counter + 1 }.fs f).isSome) = processed :=
        (List.takeWhile_prefix _).eq_of_length hlen
      have harg : processed.map
          (fun f => (fsGet (fsWrite s.fs (listFileName folder)
            (String.join ((processed.takeWhile
              (fun f => (fsGet { s with counter := s.counter + 1 }.fs f).isSome)).map
                fmt_entry))) f).getD "") =
          processed.map (fun f => (fsGet s.fs f).getD "") := by
        refine List.map_congr_left ?_
        intro f hf
        obtain ⟨n, hn, rfl⟩ := hall f hf
        rw [fsGet_write_ne _ _ (fun hh => temp_ne_listfile mp4_head hh.symm)]
      rw [harg] at hm
      refine ⟨rfl, m, hm, ?_, ?_, ?_⟩
      · exact fsGet_write_self _ _ _
      · rw [fsGet_write_ne _ _ (fun hh => temp_ne_listfile mp4_head hh)]
        rw [fsGet_write_self, hpre]
      · simp
  · simp at h

theorem grf_fresh {env : Env} {s : WState} (h : s.tlFolder = none) :
    get_request_folder env s =
      (pjoin UPLOAD_FOLDER ("request_" ++ env.timestamp ++ "_" ++ uuid s.counter),
       { s with counter := s.counter + 1,
                tlFolder := some (pjoin UPLOAD_FOLDER
                  ("request_" ++ env.timestamp ++ "_" ++ uuid s.counter)),
                dirs := s.dirs ++ [pjoin UPLOAD_FOLDER
                  ("request_" ++ env.timestamp ++ "_" ++ uuid s.counter)] }) := by
  unfold get_request_folder
  rw [h]

theorem uploads_head : UPLOAD_FOLDER.data.head? = some 'u' := by decide

theorem grf_good {env : Env} {s : WState} (h : s.tlFolder = none) :
    GoodFolder (get_request_folder env s).1 := by
  rw [grf_fresh h]
  exact pjoin_head _ _ uploads_head

theorem cleanup_clean {s : WState} {f : String} (ht : s.tlFolder = some f)
    (hd : f ∈ s.dirs) :
    ∀ e ∈ (cleanup_request_folder s).fs, isUnder f e.1 = false := by
  unfold cleanup_request_folder
  rw [ht]
  dsimp only
  rw [if_pos hd]
  intro e he
  have := (List.mem_filter.mp he).2
  simpa using this

theorem cleanup_fsGet {s : WState} {f : String} (ht : s.tlFolder = some f)
    (hd : f ∈ s.dirs) {q : String} (hq : isUnder f q = false) :
    fsGet (cleanup_request_folder s).fs q = fsGet s.fs q := by
  unfold cleanup_request_folder
  rw [ht]
  dsimp only
  rw [if_pos hd]
  exact fsGet_filter_keep f s.fs q hq

theorem head_of_isUnder {dir q : String} {x : Char} (hd : dir.data.head? = some x)
    (h : isUnder dir q = true) : q.data.head? = some x := by
  rw [isUnder] at h
  cases hdd : dir.data with
  | nil => rw [hdd] at hd; simp at hd
  | cons a t =>
    rw [hdd] at hd
    simp at hd
    rw [hdd] at h
    cases hqq : q.data with
    | nil => rw [hqq] at h; simp [List.isPrefixOf] at h
    | cons b u =>
      rw [hqq] at h
      simp only [List.cons_append, List.isPrefixOf, Bool.and_eq_true, beq_iff_eq] at h
      simp [← hd, h.1]

/-- Successful video-only fallback: with the merged asset present and
non-empty, `emit_video_only` copies it to the deliverable path and passes the
final check. -/
theorem emit_ok {scene_id sm : String} {s : WState} {m : String}
    (hm : fsGet s.fs sm = some m) (hm0 : m ≠ "") :
    emit_video_only scene_id sm s =
      (.ok (outputFile scene_id, "scene_" ++ scene_id ++ ".mp4"),
       { s with fs := fsWrite s.fs (outputFile scene_id) m }) := by
  unfold emit_video_only copy2
  rw [hm]
  dsimp only
  unfold final_integrity_check
  rw [fsGet_write_self]
  dsimp only
  rw [if_neg hm0]

theorem download_err_eq {env : Env} {s : WState} {url : String}
    (hf : env.fetch (normalize_url url) = none) :
    download_from_s3 env s url =
      (.error ("Error downloading from S3: " ++ normalize_url url), s) := by
  unfold download_from_s3
  dsimp only
  rw [hf]

theorem download_empty_eq {env : Env} {s : WState} {url : String}
    (hf : env.fetch (normalize_url url) = some "") :
    download_from_s3 env s url = (.error "Downloaded file is empty", s) := by
  unfold download_from_s3
  dsimp only
  rw [hf]
  dsimp only
  rw [if_pos rfl]

theorem download_ok_eq {env : Env} {s : WState} {url : String} {b : String}
    (hf : env.fetch (normalize_url url) = some b) (hb : b ≠ "") :
    download_from_s3 env s url =
      (.ok b, { s with counter := s.counter + 1,
                       fs := fsWrite s.fs (debugDown s.counter) b }) := by
  unfold download_from_s3
  dsimp only
  rw [hf]
  dsimp only
  rw [if_neg hb]

/-! ## Claim theorems -/

/-- C10: a scene request with an empty shot list is rejected with the
invalid-input error ("At least one shot is required", HTTP 400) and the worker
state is returned untouched — in particular no scratch directory is created
(`dirs` unchanged) and no file is written. -/
theorem empty_shots_rejected_no_scratch (env : Env) (req : SceneRequest)
    (s0 : WState) (h : req.shots = []) :
    process_scene env req s0 = (.err "At least one shot is required" 400, s0) := by
  unfold process_scene
  rw [if_pos (by simp [h])]

/-- C10 witness. -/
theorem empty_shots_rejected_no_scratch_witness :
    process_scene wEnv ⟨[], none, "sid"⟩ initState =
      (.err "At least one shot is required" 400, initState) :=
  empty_shots_rejected_no_scratch wEnv ⟨[], none, "sid"⟩ initState rfl

/-- C2 counterexample: in a concrete successful `process_scene` run, the
concat invocation the code constructs (and records) selects no `copy` codec
anywhere — the claim that the concat step copies the input streams rather than
re-encoding them is false on the code. -/
theorem concat_not_stream_copy_counterexample :
    scene_merge_cmd (listFileName wFolder) (temp wFolder 4 ".mp4")
        ∈ (process_scene wEnv wReq initState).2.cmds ∧
    claimed_stream_copy
      (scene_merge_cmd (listFileName wFolder) (temp wFolder 4 ".mp4")) = false := by
  decide

/-- C2 amended: the concat invocation of `process_scene` re-encodes instead of
stream-copying: for any manifest path and output path (neither the literal
string `copy`), the constructed command has no `copy` argument and selects
libx264 for video and aac for audio. -/
theorem concat_cmd_reencodes (lf out : String) (h1 : lf ≠ "copy") (h2 : out ≠ "copy") :
    claimed_stream_copy (scene_merge_cmd lf out) = false ∧
    "libx264" ∈ scene_merge_cmd lf out ∧ "aac" ∈ scene_merge_cmd lf out := by
  have g1 : ¬ (("copy" : String) = lf) := fun hh => h1 hh.symm
  have g2 : ¬ (("copy" : String) = out) := fun hh => h2 hh.symm
  refine ⟨?_, by simp [scene_merge_cmd], by simp [scene_merge_cmd]⟩
  simp [claimed_stream_copy, scene_merge_cmd, g1, g2]

/-- C2 amended witness. -/
theorem concat_cmd_reencodes_witness :
    claimed_stream_copy (scene_merge_cmd "L" "O") = false ∧
    "libx264" ∈ scene_merge_cmd "L" "O" ∧ "aac" ∈ scene_merge_cmd "L" "O" :=
  concat_cmd_reencodes "L" "O" (by decide) (by decide)

/-- C9 counterexample: `download_from_s3` does write a file itself — the debug
copy of the downloaded body — so "no side effect beyond the network call /
writes no files itself" is false on the code. -/
theorem fetch_writes_debug_file_counterexample :
    (download_from_s3 wEnv initState wVUrl).1 = .ok "V" ∧
    fsGet (download_from_s3 wEnv initState wVUrl).2.fs (debugDown 0) = some "V" ∧
    fsGet initState.fs (debugDown 0) = none := by
  decide

/-- C9 amended: `download_from_s3` returns exactly the fetched bytes, and its
only file-system effect is one debug copy of the body under the debug folder
(nothing on failure); in particular it writes nothing under any request
scratch folder — persisting to scratch stays the orchestrator's job. -/
theorem fetch_effects_exactly_debug_write {env : Env} {s : WState} {url : String}
    {r : Except String String} {s' : WState}
    (h : download_from_s3 env s url = (r, s')) :
    (∀ c, r = .ok c → env.fetch (normalize_url url) = some c ∧
      s'.fs = fsWrite s.fs (debugDown s.counter) c) ∧
    ((∃ e, r = .error e) → s'.fs = s.fs) ∧
    (∀ folder, GoodFolder folder → ∀ q, isUnder folder q = true →
      fsGet s'.fs q = fsGet s.fs q) := by
  obtain ⟨-, -, -, -, -, hpres, herr, hok⟩ := download_spec h
  refine ⟨?_, ?_, ?_⟩
  · intro c hc
    obtain ⟨hf, -, hs⟩ := hok c hc
    exact ⟨hf, by rw [hs]⟩
  · intro he
    rw [herr he]
  · intro folder hgf q hq
    refine hpres q ?_
    intro k hk hdd
    have h1 : q.data.head? = some 'u' := head_of_isUnder hgf hq
    have h2 : (debugDown k).data.head? = some 'd' := pjoin_head _ _ debug_head
    rw [hdd] at h1
    rw [h1] at h2
    exact absurd (Option.some.inj h2) (by decide)

/-- C9 amended witness. -/
theorem fetch_effects_exactly_debug_write_witness :
    wEnv.fetch (normalize_url wVUrl) = some "V" ∧
    (download_from_s3 wEnv initState wVUrl).2.fs =
      fsWrite initState.fs (debugDown initState.counter) "V" :=
  (fetch_effects_exactly_debug_write rfl).1 "V" rfl

/-- C6 counterexample: a concrete scene with a single shot still issues the
multi-file ffmpeg concat join — the claim that a single-element input never
invokes the join machinery is false for `process_scene`. -/
theorem single_clip_still_joined_counterexample :
    wReq.shots.length = 1 ∧
    scene_merge_cmd (listFileName wFolder) (temp wFolder 4 ".mp4")
      ∈ (process_scene wEnv wReq initState).2.cmds := by
  decide

/-- C6 amended: in `process_scene` even a single-element clip list goes
through the ffmpeg concat join (the merge command is issued); the single-file
copy shortcut exists only in the `merge_audio` endpoint's output choice. -/
theorem single_clip_join_vs_audio_copy {env : Env} {folder : String} {p : String}
    {s : WState} {sm : String} {s' : WState}
    (hp : ∃ n, n < s.counter ∧ p = temp folder n ".mp4")
    (h : concat_step env folder [p] s = (.ok sm, s')) :
    scene_merge_cmd (listFileName folder) sm ∈ s'.cmds ∧
    merge_audio_plan [p] = .copySingle p := by
  have hall : ∀ q ∈ [p], ∃ n, n < s.counter ∧ q = temp folder n ".mp4" := by
    intro q hq
    rw [List.mem_singleton.mp hq]
    exact hp
  obtain ⟨-, m, -, -, -, hcmd⟩ := concat_step_ok hall h
  exact ⟨hcmd, by simp [merge_audio_plan]⟩

/-- C6 amended witness. -/
theorem single_clip_join_vs_audio_copy_witness :
    scene_merge_cmd (listFileName wFolder) (temp wFolder 1 ".mp4")
      ∈ (concat_step wEnv wFolder [temp wFolder 0 ".mp4"]
          ⟨[(temp wFolder 0 ".mp4", "V")], [], 1, [], none⟩).2.cmds ∧
    merge_audio_plan [temp wFolder 0 ".mp4"] = .copySingle (temp wFolder 0 ".mp4") :=
  @single_clip_join_vs_audio_copy wEnv wFolder (temp wFolder 0 ".mp4")
    ⟨[(temp wFolder 0 ".mp4", "V")], [], 1, [], none⟩ (temp wFolder 1 ".mp4")
    (concat_step wEnv wFolder [temp wFolder 0 ".mp4"]
      ⟨[(temp wFolder 0 ".mp4", "V")], [], 1, [], none⟩).2
    ⟨0, by decide, rfl⟩ (by decide)

/-- C7 (code bug): after a completed request, the worker's thread-local folder
attribute is still set while its directory has been deleted; a second request
on the same worker thread gets the first request's folder path back with the
state unchanged — no fresh unique directory, and the returned directory does
not exist.  (`cleanup_request_folder` removes the tree but never clears
`request_data.folder`, and `get_request_folder` only calls `os.makedirs` when
the attribute is absent.) -/
theorem stale_thread_local_folder_reused :
    (process_scene wEnv wReq initState).2.tlFolder = some wFolder ∧
    get_request_folder wEnv2 (process_scene wEnv wReq initState).2 =
      (wFolder, (process_scene wEnv wReq initState).2) ∧
    wFolder ∉ (process_scene wEnv wReq initState).2.dirs := by
  decide

/-- C1 counterexample: a concrete successful `process_scene` run leaves the
debug copy of the downloaded shot on disk after the handler returns; that
intermediate file does not live under the request's scratch directory and is
not removed, so not every intermediate file lies under scratch and is cleaned. -/
theorem debug_copy_survives_outside_scratch :
    (process_scene wEnv wReq initState).1 = .file (outputFile "sid") "scene_sid.mp4" ∧
    fsGet (process_scene wEnv wReq initState).2.fs (debugDown 1) = some "V" ∧
    isUnder wFolder (debugDown 1) = false := by
  decide

/-- C8: a shot whose window is absent is processed as a straight copy of the
downloaded file: the step succeeds, the processed output's content equals the
downloaded source bytes (still present unchanged at the raw input path), and
no external encoder command at all is issued — no re-encode. -/
theorem no_window_passthrough {env : Env} {folder : String} {sh : Shot}
    {s : WState} {c : String}
    (hts : sh.timestamp = none)
    (hf : env.fetch (normalize_url sh.url) = some c) (hne : c ≠ "") :
    ∃ s', shot_step env folder sh s = (.ok (temp folder (s.counter + 2) ".mp4"), s') ∧
      fsGet s'.fs (temp folder (s.counter + 2) ".mp4") = some c ∧
      fsGet s'.fs (temp folder (s.counter + 1) ".mp4") = some c ∧
      s'.cmds = s.cmds := by
  unfold shot_step
  rw [download_ok_eq hf hne]
  dsimp only
  rw [hts]
  dsimp only
  unfold copy2
  rw [fsGet_write_self]
  dsimp only
  refine ⟨_, rfl, fsGet_write_self _ _ _, ?_, rfl⟩
  rw [fsGet_write_ne _ _ (temp_ne_temp (by omega) mp4_head mp4_head)]
  exact fsGet_write_self _ _ _

/-- C8 witness. -/
theorem no_window_passthrough_witness :
    ∃ s', shot_step wEnv wFolder wShot initState =
        (.ok (temp wFolder 2 ".mp4"), s') ∧
      fsGet s'.fs (temp wFolder 2 ".mp4") = some "V" ∧
      fsGet s'.fs (temp wFolder 1 ".mp4") = some "V" ∧
      s'.cmds = initState.cmds :=
  no_window_passthrough rfl (by decide) (by decide)

/-- C4: when the requested window length `en - st` exceeds the probed source
duration `D`, the trimmer clamps: the extraction duration handed to the
encoder — both in `effective_duration` and literally in the `-t` argument of
the recorded ffmpeg command — equals `D`, and the trim completes without
error. -/
theorem trim_window_clamped_to_duration {env : Env} {s : WState}
    {input output c out : String} {st en D : Time}
    (hin : fsGet s.fs input = some c) (hdur : env.duration c = some D)
    (hgt : en - st > D) (henc : env.encode c st D = some out) (hout : out ≠ "") :
    effective_duration st en D = D ∧
    ∃ s', process_video_with_timestamps env s input st en output = (.ok (), s') ∧
      trim_cmd input st D output ∈ s'.cmds := by
  have he : effective_duration st en D = D := by
    rw [effective_duration, if_pos hgt]
  refine ⟨he, ?_⟩
  unfold process_video_with_timestamps
  dsimp only
  rw [hin]
  dsimp only
  rw [hdur]
  dsimp only
  rw [he, henc]
  dsimp only
  rw [if_neg hout]
  exact ⟨_, rfl, by simp⟩

/-- C4 witness. -/
theorem trim_window_clamped_to_duration_witness :
    effective_duration 0 20 10 = 10 ∧
    ∃ s', process_video_with_timestamps wEnv wTrimState "in.mp4" 0 20 "out.mp4" =
        (.ok (), s') ∧
      trim_cmd "in.mp4" 0 10 "out.mp4" ∈ s'.cmds :=
  @trim_window_clamped_to_duration wEnv wTrimState "in.mp4" "out.mp4" "V" "Vc" 0 20 10
    (by decide) (by decide) (by rw [sub_zero]; decide) (by decide) (by decide)

/-- C1 amended: on a fresh worker thread, whatever the environment does and
however the request ends (success, partial failure or an aborting stage),
every file under the request's scratch directory is removed before
`process_scene` returns: no entry of the returned file tree lies under that
directory.  (The debug copies exhibited by the counterexample live outside the
scratch root and survive; files under scratch are all gone.) -/
theorem scratch_subtree_clean_on_return {env : Env} {req : SceneRequest}
    {s0 : WState} (h0 : s0.tlFolder = none) (hsh : req.shots ≠ []) :
    ∀ e ∈ (process_scene env req s0).2.fs,
      isUnder (pjoin UPLOAD_FOLDER
        ("request_" ++ env.timestamp ++ "_" ++ uuid s0.counter)) e.1 = false := by
  have hlen : ¬ req.shots.length < 1 := by
    cases hq : req.shots with
    | nil => exact absurd hq hsh
    | cons a l => simp [hq]
  unfold process_scene
  rw [if_neg hlen]
  rw [grf_fresh h0]
  dsimp only
  set F := pjoin UPLOAD_FOLDER ("request_" ++ env.timestamp ++ "_" ++ uuid s0.counter)
    with hF
  set S1 : WState := ({ s0 with counter := s0.counter + 1, tlFolder := some F, dirs := s0.dirs ++ [F] } : WState) with hS1
  rcases hl : shots_loop env F req.shots S1 with ⟨r1, sa⟩
  obtain ⟨hta, hda⟩ := shots_loop_tl_dirs req.shots S1 r1 sa hl
  cases r1 with
  | error e1 =>
    dsimp only
    intro e he
    exact cleanup_clean (by rw [hta]) (by rw [hda]; simp [hS1]) e he
  | ok processed =>
    dsimp only
    rcases hc : concat_step env F processed sa with ⟨r2, sb⟩
    obtain ⟨htb, hdb⟩ := concat_step_tl_dirs hc
    cases r2 with
    | error e2 =>
      dsimp only
      intro e he
      exact cleanup_clean (by rw [htb, hta]) (by rw [hdb, hda]; simp [hS1]) e he
    | ok sm =>
      dsimp only
      rcases ha : after_concat env F req.scene_id req.audio sm sb with ⟨r3, sc⟩
      obtain ⟨htc, hdc⟩ := after_concat_tl_dirs ha
      cases r3 with
      | error e3 =>
        dsimp only
        intro e he
        exact cleanup_clean (by rw [htc, htb, hta]) (by rw [hdc, hdb, hda]; simp [hS1]) e he
      | ok pn =>
        dsimp only
        intro e he
        exact cleanup_clean (by rw [htc, htb, hta]) (by rw [hdc, hdb, hda]; simp [hS1]) e he

/-- C1 amended witness: the deliverable written by a concrete run survives and
indeed lies outside the scratch directory (the theorem applied at the final
output file of the run). -/
theorem scratch_subtree_clean_on_return_witness :
    isUnder (pjoin UPLOAD_FOLDER
      ("request_" ++ wEnv.timestamp ++ "_" ++ uuid initState.counter))
      (outputFile "sid") = false :=
  @scratch_subtree_clean_on_return wEnv wReq initState rfl (by decide)
    (outputFile "sid", "M") (by decide)

/-- C5: when the shot loop and the concat step both succeed, the processed
clips read back from disk correspond one-to-one and in order with the shots as
declared, the manifest lists exactly those clips in the same order, and the
merged output is the concat oracle applied to exactly the shots' clip contents
in declared order — segment order matches input order. -/
theorem concat_preserves_shot_order {env : Env} {folder : String}
    {shots : List Shot} {s1 : WState} {processed : List String} {s2 : WState}
    {sm : String} {s3 : WState} (hg : GoodFolder folder)
    (hl : shots_loop env folder shots s1 = (.ok processed, s2))
    (hc : concat_step env folder processed s2 = (.ok sm, s3)) :
    processed.map (fun p => fsGet s2.fs p) =
      shots.map (fun sh => shotOutputContent env sh) ∧
    fsGet s3.fs (listFileName folder) = some (String.join (processed.map fmt_entry)) ∧
    ∃ m, env.concat (processed.map (fun f => (fsGet s2.fs f).getD "")) = some m ∧
      env.concat (shots.map (fun sh => (shotOutputContent env sh).getD "")) = some m ∧
      fsGet s3.fs sm = some m := by
  obtain ⟨-, -, -, hmap, -, hmem⟩ := shots_loop_spec hg shots s1 processed s2 hl
  have hall : ∀ p ∈ processed, ∃ n, n < s2.counter ∧ p = temp folder n ".mp4" := by
    intro p hp
    obtain ⟨n, -, hn2, hn3⟩ := hmem p hp
    exact ⟨n, hn2, hn3⟩
  obtain ⟨-, m, hm, hsm, hlf, -⟩ := concat_step_ok hall hc
  have harg : processed.map (fun f => (fsGet s2.fs f).getD "") =
      shots.map (fun sh => (shotOutputContent env sh).getD "") := by
    have h2 := congrArg (List.map (fun o : Option String => o.getD "")) hmap
    simpa [List.map_map, Function.comp] using h2
  exact ⟨hmap, hlf, m, hm, by rw [← harg]; exact hm, hsm⟩

/-- C5 witness: two windowless shots, concatenated in declared order. -/
theorem concat_preserves_shot_order_witness :
    ([temp wFolder 2 ".mp4", temp wFolder 5 ".mp4"].map
        (fun p => fsGet (shots_loop wEnv wFolder wReq3.shots initState).2.fs p) =
      wReq3.shots.map (fun sh => shotOutputContent wEnv sh)) ∧
    fsGet (concat_step wEnv wFolder [temp wFolder 2 ".mp4", temp wFolder 5 ".mp4"]
        (shots_loop wEnv wFolder wReq3.shots initState).2).2.fs (listFileName wFolder) =
      some (String.join ([temp wFolder 2 ".mp4", temp wFolder 5 ".mp4"].map fmt_entry)) ∧
    ∃ m, wEnv.concat ([temp wFolder 2 ".mp4", temp wFolder 5 ".mp4"].map
        (fun f => (fsGet (shots_loop wEnv wFolder wReq3.shots initState).2.fs f).getD ""))
        = some m ∧
      wEnv.concat (wReq3.shots.map (fun sh => (shotOutputContent wEnv sh).getD ""))
        = some m ∧
      fsGet (concat_step wEnv wFolder [temp wFolder 2 ".mp4", temp wFolder 5 ".mp4"]
        (shots_loop wEnv wFolder wReq3.shots initState).2).2.fs (temp wFolder 6 ".mp4")
        = some m :=
  @concat_preserves_shot_order wEnv wFolder wReq3.shots initState
    [temp wFolder 2 ".mp4", temp wFolder 5 ".mp4"]
    (shots_loop wEnv wFolder wReq3.shots initState).2
    (temp wFolder 6 ".mp4")
    (concat_step wEnv wFolder [temp wFolder 2 ".mp4", temp wFolder 5 ".mp4"]
      (shots_loop wEnv wFolder wReq3.shots initState).2).2
    (by unfold GoodFolder; decide) (by decide) (by decide)

/-- C3: with an audio reference supplied, if the audio fetch fails (raised
request error or empty body) or the audio mux fails, `process_scene` still
completes successfully on any run whose earlier stages succeeded: it returns
the deliverable whose content is exactly the video-only concatenated asset
`m`; the audio failure is never surfaced as a scene-level failure. -/
theorem audio_failure_degrades_to_video_only {env : Env} {req : SceneRequest}
    {s0 : WState} {folder : String} {s1 : WState} {processed : List String}
    {s2 : WState} {sm : String} {s3 : WState} {m aurl : String}
    (h0 : s0.tlFolder = none) (hsh : req.shots ≠ [])
    (hgr : get_request_folder env s0 = (folder, s1))
    (haud : req.audio = some aurl)
    (hl : shots_loop env folder req.shots s1 = (.ok processed, s2))
    (hc : concat_step env folder processed s2 = (.ok sm, s3))
    (hm : fsGet s3.fs sm = some m) (hm0 : m ≠ "")
    (hfail : env.fetch (normalize_url aurl) = none ∨
             env.fetch (normalize_url aurl) = some "" ∨
             ∃ b, env.fetch (normalize_url aurl) = some b ∧ b ≠ "" ∧
               env.mux m b = none) :
    ∃ sF, process_scene env req s0 =
        (.file (outputFile req.scene_id) ("scene_" ++ req.scene_id ++ ".mp4"), sF) ∧
      fsGet sF.fs (outputFile req.scene_id) = some m := by
  have hgr2 := (grf_fresh h0).symm.trans hgr
  obtain ⟨hfol, hs1⟩ := Prod.mk.inj hgr2
  have hgf : GoodFolder folder := by
    rw [← hfol]
    exact pjoin_head _ _ uploads_head
  have hs1tl : s1.tlFolder = some folder := by
    rw [← hs1]
    dsimp only
    rw [hfol]
  have hs1dirs : folder ∈ s1.dirs := by
    rw [← hs1]
    dsimp only
    rw [hfol]
    simp
  obtain ⟨hsm_eq, hs3c⟩ := concat_step_shape hc
  obtain ⟨ht2, hd2⟩ := concat_step_tl_dirs hc
  obtain ⟨ht1, hd1⟩ := shots_loop_tl_dirs req.shots s1 _ _ hl
  have key : ∃ sc, after_concat env folder req.scene_id (some aurl) sm s3 =
      (.ok (outputFile req.scene_id, "scene_" ++ req.scene_id ++ ".mp4"), sc) ∧
      fsGet sc.fs (outputFile req.scene_id) = some m ∧
      sc.tlFolder = s3.tlFolder ∧ sc.dirs = s3.dirs := by
    rcases hfail with hfx | hfx | ⟨b, hfx, hb, hmux⟩
    · have hstep : after_concat env folder req.scene_id (some aurl) sm s3 =
          emit_video_only req.scene_id sm s3 := by
        unfold after_concat
        dsimp only
        rw [@download_err_eq env s3 aurl hfx]
      rw [hstep, emit_ok hm hm0]
      exact ⟨_, rfl, by dsimp only; rw [fsGet_write_self], rfl, rfl⟩
    · have hstep : after_concat env folder req.scene_id (some aurl) sm s3 =
          emit_video_only req.scene_id sm s3 := by
        unfold after_concat
        dsimp only
        rw [@download_empty_eq env s3 aurl hfx]
      rw [hstep, emit_ok hm hm0]
      exact ⟨_, rfl, by dsimp only; rw [fsGet_write_self], rfl, rfl⟩
    · have hget : fsGet (fsWrite (fsWrite s3.fs (debugDown s3.counter) b)
          (temp folder (s3.counter + 1) ".mp3") b) sm = some m := by
        rw [fsGet_write_ne _ _ (by rw [hsm_eq]; exact temp_ne_temp (by omega) mp3_head mp4_head)]
        rw [fsGet_write_ne _ _ (by rw [hsm_eq]; exact pjoin_ne_pjoin_of_head _ _ debug_head hgf (by decide))]
        exact hm
      have hstep : after_concat env folder req.scene_id (some aurl) sm s3 = emit_video_only req.scene_id sm ⟨fsWrite (fsWrite s3.fs (debugDown s3.counter) b) (temp folder (s3.counter + 1) ".mp3") b, s3.dirs, s3.counter + 1 + 1, s3.cmds ++ [scene_mux_cmd sm (temp folder (s3.counter + 1) ".mp3") (outputFile req.scene_id)], s3.tlFolder⟩ := by
        unfold after_concat
        dsimp only
        rw [@download_ok_eq env s3 aurl b hfx hb]
        dsimp only
        rw [hget]
        rw [Option.getD_some, hmux]
      rw [hstep]
      rw [@emit_ok req.scene_id sm ⟨fsWrite (fsWrite s3.fs (debugDown s3.counter) b) (temp folder (s3.counter + 1) ".mp3") b, s3.dirs, s3.counter + 1 + 1, s3.cmds ++ [scene_mux_cmd sm (temp folder (s3.counter + 1) ".mp3") (outputFile req.scene_id)], s3.tlFolder⟩ m hget hm0]
      exact ⟨_, rfl, by dsimp only; rw [fsGet_write_self], rfl, rfl⟩
  obtain ⟨sc, hac, hout, hsct, hscd⟩ := key
  have hlen : ¬ req.shots.length < 1 := by
    cases hq : req.shots with
    | nil => exact absurd hq hsh
    | cons a l => simp [hq]
  have hsc_tl : sc.tlFolder = some folder := by
    rw [hsct, ht2, ht1, hs1tl]
  have hsc_dirs : folder ∈ sc.dirs := by
    rw [hscd, hd2, hd1]
    exact hs1dirs
  have hqout : isUnder folder (outputFile req.scene_id) = false :=
    isUnder_eq_false_of_head hgf (pjoin_head _ _ output_head) (by decide)
  unfold process_scene
  rw [if_neg hlen]
  rw [hgr]
  dsimp only
  rw [hl]
  dsimp only
  rw [hc]
  dsimp only
  rw [haud, hac]
  dsimp only
  refine ⟨cleanup_request_folder sc, rfl, ?_⟩
  rw [cleanup_fsGet hsc_tl hsc_dirs hqout]
  exact hout

/-- C3 witness: one windowless shot, audio url whose fetch 404s. -/
theorem audio_failure_degrades_to_video_only_witness :
    ∃ sF, process_scene wEnv wReqA initState =
        (.file (outputFile wReqA.scene_id)
          ("scene_" ++ wReqA.scene_id ++ ".mp4"), sF) ∧
      fsGet sF.fs (outputFile wReqA.scene_id) = some "M" :=
  @audio_failure_degrades_to_video_only wEnv wReqA initState wFolder
    (get_request_folder wEnv initState).2 [temp wFolder 3 ".mp4"]
    (shots_loop wEnv wFolder wReqA.shots (get_request_folder wEnv initState).2).2
    (temp wFolder 4 ".mp4")
    (concat_step wEnv wFolder [temp wFolder 3 ".mp4"]
      (shots_loop wEnv wFolder wReqA.shots (get_request_folder wEnv initState).2).2).2
    "M" wAUrl
    rfl (by decide) (by decide) rfl (by decide) (by decide) (by decide) (by decide)
    (Or.inl (by decide))

end AudioVideo
